import Mathlib

/-!
Verification of the dynamic endpoint resolution and dispatch engine of the
`api-forward` repository (`index.js`): the wildcard route handler
`app.get('/:apiKey')`, its parameter-validation loop, the URL-construction
strategies (`special_forward`, `special_pollinations`,
`special_draw_redirect`, generic), and the proxy executor
`handleProxyRequest` with `getValueByDotNotation`.

JavaScript values are embedded shallowly: strings stay `String`, JS objects
used as string maps become ordered association lists, `undefined`/optional
values become `Option`, JSON bodies become the inductive `JsonValue`, and
HTTP effects (`res.redirect`, `res.status(..).json(..)`, `next()`, the
outbound `axios.get`) become constructors of explicit result types.
-/

/-! ## Generic list and string helpers (JS semantics) -/

/-- First-match association-list lookup: `obj[key]`, `undefined` ↦ `none`. -/
def lookupAssoc (m : List (String × String)) (key : String) : Option String :=
  match m with
  | [] => none
  | (k, v) :: rest => if k = key then some v else lookupAssoc rest key

/-- JS object property assignment `obj[key] = v`: replace the first binding
of `key` if present (JS object keys are unique), else append, preserving
insertion order. -/
def insertAssoc (m : List (String × String)) (key v : String) : List (String × String) :=
  match m with
  | [] => [(key, v)]
  | (k, w) :: rest => if k = key then (k, v) :: rest else (k, w) :: insertAssoc rest key v

/-- `Array.prototype.includes` on a string array. -/
def listHas (v : String) : List String → Bool
  | [] => false
  | x :: xs => if x = v then true else listHas v xs

/-- `Array.prototype.join(sep)`. -/
def joinSep (sep : String) : List String → String
  | [] => ""
  | [x] => x
  | x :: y :: rest => x ++ sep ++ joinSep sep (y :: rest)

/-- `String.prototype.split(sep)` for a one-character separator, on the
character list: never returns an empty list, keeps empty pieces. -/
def splitChar (sep : Char) : List Char → List (List Char)
  | [] => [[]]
  | c :: rest =>
    if c = sep then [] :: splitChar sep rest
    else
      match splitChar sep rest with
      | [] => [[c]]
      | piece :: pieces => (c :: piece) :: pieces

/-- Does `needle` occur at the head of `haystack`? -/
def listStartsWith : List Char → List Char → Bool
  | [], _ => true
  | _ :: _, [] => false
  | a :: as, b :: bs => a = b && listStartsWith as bs

/-- Unanchored substring search over character lists. -/
def listHasSub (needle : List Char) : List Char → Bool
  | [] => needle.isEmpty
  | c :: rest => listStartsWith needle (c :: rest) || listHasSub needle rest

/-- ASCII-only lower-casing, matching the case folding a `/.../i` regex
performs on ASCII pattern characters. -/
def asciiLower (c : Char) : Char :=
  if 'A' ≤ c && c ≤ 'Z' then Char.ofNat (c.toNat + 32) else c

/-- JS `a || b` on an optional string `a` with string default `b`
(`undefined` and `""` are falsy). -/
def jsOr (v : Option String) (d : String) : String :=
  match v with
  | some s => if s = "" then d else s
  | none => d

/-- JS `a || b` for a plain string `a` (only `""` is falsy). -/
def jsOrStr (s d : String) : String := if s = "" then d else s

/-! ## Percent-encoding (the `encodeURIComponent` and `URLSearchParams`
builtins used by the handler, modelled byte-exactly for valid input) -/

/-- UTF-8 encoding of one code point, as byte values. -/
def utf8Bytes (c : Char) : List Nat :=
  let n := c.toNat
  if n < 0x80 then [n]
  else if n < 0x800 then [0xC0 + n / 64, 0x80 + n % 64]
  else if n < 0x10000 then [0xE0 + n / 4096, 0x80 + (n / 64) % 64, 0x80 + n % 64]
  else [0xF0 + n / 262144, 0x80 + (n / 4096) % 64, 0x80 + (n / 64) % 64, 0x80 + n % 64]

/-- UTF-8 bytes of a whole string. -/
def strBytes (s : String) : List Nat := (s.data.map utf8Bytes).flatten

/-- Uppercase hex digit. -/
def hexDigit (n : Nat) : Char :=
  if n < 10 then Char.ofNat (48 + n) else Char.ofNat (65 + (n - 10))

/-- `%XX` escape of one byte (uppercase hex, as the JS builtins emit). -/
def percentChars (b : Nat) : List Char := ['%', hexDigit (b / 16), hexDigit (b % 16)]

/-- Is `c` in `encodeURIComponent`'s unescaped set
`A–Z a–z 0–9 - _ . ! ~ * ' ( )`? -/
def uriUnescaped (c : Char) : Bool :=
  ('A' ≤ c && c ≤ 'Z') || ('a' ≤ c && c ≤ 'z') || ('0' ≤ c && c ≤ '9') ||
    [ '-', '_', '.', '!', '~', '*', Char.ofNat 39, '(', ')' ].contains c

/-- The `encodeURIComponent` builtin. -/
def encodeURIComponent (s : String) : String :=
  String.mk ((s.data.map fun c =>
    if uriUnescaped c then [c] else (utf8Bytes c).map percentChars |>.flatten).flatten)

/-- Is byte `b` kept verbatim by the `application/x-www-form-urlencoded`
serializer (`URLSearchParams.toString`): `* - . _` and ASCII alphanumerics? -/
def formUnescapedByte (b : Nat) : Bool :=
  b = 0x2A || b = 0x2D || b = 0x2E || b = 0x5F ||
    (0x30 ≤ b && b ≤ 0x39) || (0x41 ≤ b && b ≤ 0x5A) || (0x61 ≤ b && b ≤ 0x7A)

/-- One byte under the form-urlencoded serializer: space becomes `+`,
unescaped bytes stay, the rest are `%XX`-escaped. -/
def formEncodeByte (b : Nat) : List Char :=
  if b = 0x20 then ['+']
  else if formUnescapedByte b then [Char.ofNat b]
  else percentChars b

/-- Serialize one name or value (a byte sequence) for form-urlencoding. -/
def formEncodeBytes (bs : List Nat) : String :=
  String.mk ((bs.map formEncodeByte).flatten)

/-- `URLSearchParams.toString` over a pair list held as byte sequences. -/
def serializeFormBytes (l : List (List Nat × List Nat)) : String :=
  joinSep "&" (l.map fun p => formEncodeBytes p.1 ++ "=" ++ formEncodeBytes p.2)

/-- `new URLSearchParams(obj).toString()` on a string-pair list. -/
def serializeForm (l : List (String × String)) : String :=
  serializeFormBytes (l.map fun p => (strBytes p.1, strBytes p.2))

/-- Hex digit value, if any. -/
def hexVal (c : Char) : Option Nat :=
  if '0' ≤ c && c ≤ '9' then some (c.toNat - 48)
  else if 'A' ≤ c && c ≤ 'F' then some (c.toNat - 55)
  else if 'a' ≤ c && c ≤ 'f' then some (c.toNat - 87)
  else none

/-- Form-urlencoded percent-decoding to bytes: `+` is space, valid `%XX`
pairs decode, anything else contributes its own UTF-8 bytes. -/
def decodeBytes : List Char → List Nat
  | [] => []
  | '+' :: rest => 0x20 :: decodeBytes rest
  | '%' :: h1 :: h2 :: rest =>
    match hexVal h1, hexVal h2 with
    | some a, some b => (16 * a + b) :: decodeBytes rest
    | _, _ => utf8Bytes '%' ++ decodeBytes (h1 :: h2 :: rest)
  | c :: rest => utf8Bytes c ++ decodeBytes rest


/-! ## Model of the WHATWG `URL` builtin, as used by the generic handler
(`new URL(base)`, `searchParams.append`, `toString`).  The model covers
absolute URLs `scheme ':' opaque-part [ '?' query ] [ '#' fragment ]`
without the builtin's normalisation (scheme lower-casing, path
normalisation, punycode); a string with no scheme fails to parse, matching
the `new URL` throw that sends the handler to its string-concatenation
fallback. -/

structure URLRec where
  scheme : List Char
  opaquePart : List Char
  query : Option (List Char)
  fragment : Option (List Char)
deriving Repr, DecidableEq

/-- Is `c` allowed in a URL scheme after the first character? -/
def schemeChar (c : Char) : Bool :=
  ('A' ≤ c && c ≤ 'Z') || ('a' ≤ c && c ≤ 'z') || ('0' ≤ c && c ≤ '9') ||
    c = '+' || c = '-' || c = '.'

/-- Split a leading `scheme ':'`; `none` when the string has no scheme. -/
def splitScheme (cs : List Char) (acc : List Char) : Option (List Char × List Char) :=
  match cs with
  | [] => none
  | c :: rest =>
    if c = ':' then
      if acc = [] then none else some (acc.reverse, rest)
    else if acc = [] then
      if ('A' ≤ c && c ≤ 'Z') || ('a' ≤ c && c ≤ 'z') then splitScheme rest [c] else none
    else if schemeChar c then splitScheme rest (c :: acc) else none

/-- Split at the first occurrence of `sep`; `none` right part when absent. -/
def splitFirst (sep : Char) : List Char → List Char × Option (List Char)
  | [] => ([], none)
  | c :: rest =>
    if c = sep then ([], some rest)
    else
      let (l, r) := splitFirst sep rest
      (c :: l, r)

/-- `new URL(s)`: `none` models the constructor throwing. -/
def parseURL (s : String) : Option URLRec :=
  match splitScheme s.data [] with
  | none => none
  | some (scheme, rest) =>
    let (beforeFrag, frag) := splitFirst '#' rest
    let (opaquePart, query) := splitFirst '?' beforeFrag
    some ⟨scheme, opaquePart, query, frag⟩

/-- Parse a query string into `URLSearchParams` pairs (byte sequences):
split on `&`, drop empty pieces, split each piece at its first `=`,
percent-decode. -/
def parseFormBytes (q : List Char) : List (List Nat × List Nat) :=
  ((splitChar '&' q).filter (· ≠ [])).map fun piece =>
    match splitFirst '=' piece with
    | (k, some v) => (decodeBytes k, decodeBytes v)
    | (k, none) => (decodeBytes k, [])

/-- `url.searchParams.append(k, v)` for every validated pair, in order:
the existing query is parsed into pairs, the new pairs are appended, and
the whole list is re-serialized. -/
def appendSearchParams (u : URLRec) (params : List (String × String)) : URLRec :=
  let pairs := parseFormBytes (u.query.getD []) ++
    params.map fun p => (strBytes p.1, strBytes p.2)
  { u with query := some (serializeFormBytes pairs).data }

/-- `url.toString()` (href serialisation, no normalisation). -/
def urlToString (u : URLRec) : String :=
  String.mk (u.scheme ++ ':' :: u.opaquePart ++
    (match u.query with | some q => '?' :: q | none => []) ++
    (match u.fragment with | some f => '#' :: f | none => []))

/-! ## Data model (configuration snapshot, as the dispatcher reads it) -/

/-- `proxySettings` of an endpoint; every field may be absent.  A missing
`proxySettings` object behaves exactly like one with every field absent
(the handler only reads it through `?.` and passes it to
`handleProxyRequest` whose parameter defaults to `{}`), so it is embedded
as the all-`none` record. -/
structure ProxySettings where
  imageUrlField : Option String
  imageUrlFieldFromParam : Option Bool
  imageUrlFieldFromParamDefault : Option String
  fallbackAction : Option String
deriving Repr, DecidableEq

/-- A `queryParams` entry. `required === 1`-style truthiness is resolved to
`Bool`; `defaultValue`/`validValues` are `undefined`-able. -/
structure ParameterSchema where
  name : String
  required : Bool
  defaultValue : Option String
  validValues : Option (List String)
deriving Repr, DecidableEq

/-- One `apiUrls` entry.  `method` and `url` are plain strings where `""`
doubles for the JS falsy missing value (the handler only ever tests them
for truthiness or strict string equality); `urlConstruction` and
`modelName` are compared with `===`/interpolated, so they stay `Option`. -/
structure Endpoint where
  url : String
  method : String
  urlConstruction : Option String
  modelName : Option String
  queryParams : List ParameterSchema
  proxySettings : ProxySettings
deriving Repr, DecidableEq

/-- The in-memory snapshot `currentConfig`. -/
structure Config where
  apiUrls : List (String × Endpoint)
  baseTag : String

/-- Endpoint lookup `currentConfig.apiUrls[apiKey]`. -/
def lookupEndpoint (m : List (String × Endpoint)) (key : String) : Option Endpoint :=
  match m with
  | [] => none
  | (k, v) :: rest => if k = key then some v else lookupEndpoint rest key

/-- The observable outcome of one run of the `app.get('/:apiKey')` handler:
fall through to the next middleware, an HTTP redirect, an invocation of the
proxy executor `handleProxyRequest(targetUrl, settings, res)`, or a JSON
error response `res.status(status).json({ error, details })` (`details`
empty when the body has no `details` field). -/
inductive DispatchResult where
  | next
  | redirect (location : String)
  | proxy (targetUrl : String) (settings : ProxySettings)
  | jsonError (status : Nat) (error : String) (details : List String)
deriving Repr, DecidableEq


/-! ## JSON values and the proxy executor (`handleProxyRequest`,
`getValueByDotNotation`) -/

/-- A JSON value as delivered by `axios` (`response.data`).  Numbers are
embedded as integers; none of the verified behaviour inspects numeric
values beyond JS truthiness. -/
inductive JsonValue where
  | null
  | bool (b : Bool)
  | num (n : Int)
  | str (s : String)
  | arr (items : List JsonValue)
  | obj (fields : List (String × JsonValue))

/-- JS falsiness of a JSON value (`null`, `false`, `0`, `""`). -/
def jsFalsy : JsonValue → Bool
  | JsonValue.null => true
  | JsonValue.bool b => !b
  | JsonValue.num n => n = 0
  | JsonValue.str s => s = ""
  | _ => false

/-- JS `a || b` on JSON values. -/
def jsOrJson (v d : JsonValue) : JsonValue := if jsFalsy v then d else v

/-- `v && typeof v === 'object'`: a truthy value of object type (objects
and arrays; `null` has object type but is falsy). -/
def jsTruthyObject : JsonValue → Bool
  | JsonValue.obj _ => true
  | JsonValue.arr _ => true
  | _ => false

/-- First-match field lookup in a JSON object (JSON object keys are
unique; `obj[key]`, absent ↦ `undefined`). -/
def lookupField : List (String × JsonValue) → String → Option JsonValue
  | [], _ => none
  | (k, v) :: rest, key => if k = key then some v else lookupField rest key

/-- Digits-to-number accumulation. -/
def digitsToNat (acc : Nat) : List Char → Nat
  | [] => acc
  | c :: rest => digitsToNat (acc * 10 + (c.toNat - 48)) rest

/-- A canonical JS array-index string: `"0"`, or digits without a leading
zero. -/
def parseIndex (s : String) : Option Nat :=
  match s.data with
  | [] => none
  | ['0'] => some 0
  | c :: rest =>
    if ('1' ≤ c && c ≤ '9') && rest.all (fun d => '0' ≤ d && d ≤ '9') then
      some (digitsToNat 0 (c :: rest))
    else none

/-- `arr[key]` for a string key on a JS array holding JSON data: a
canonical numeric index in range selects the element, `"length"` gives the
length, anything else is `undefined` (prototype members of JSON-parsed
arrays are never JSON data, so a path through them can only end in a
non-string; they are embedded as absent). -/
def arrGet (items : List JsonValue) (key : String) : Option JsonValue :=
  if key = "length" then some (JsonValue.num items.length)
  else
    match parseIndex key with
    | some i => items.get? i
    | none => none

/-- The loop of `getValueByDotNotation`: `current` starts as the root,
each key first checks `current === null || current === undefined ||
typeof current !== 'object'` (returning `undefined`), then indexes.
`none` is JS `undefined`. -/
def dotLookup : Option JsonValue → List String → Option JsonValue
  | cur, [] => cur
  | cur, key :: keys =>
    match cur with
    | some (JsonValue.obj fields) => dotLookup (lookupField fields key) keys
    | some (JsonValue.arr items) => dotLookup (arrGet items key) keys
    | _ => none

/-- `getValueByDotNotation(obj, path)` (`index.js` lines 300–311). -/
def getValueByDotNotation (v : JsonValue) (path : String) : Option JsonValue :=
  if path = "" then none
  else dotLookup (some v) ((splitChar '.' path.data).map fun l => String.mk l)

/-- The image-extension test `imageUrl.match(/\.(jpeg|jpg|gif|png|webp|bmp|svg)/i)`:
case-insensitive unanchored substring search for a dot followed by one of
the extensions. -/
def hasImageExt (s : String) : Bool :=
  let low := s.data.map asciiLower
  [".jpeg", ".jpg", ".gif", ".png", ".webp", ".bmp", ".svg"].any
    fun e => listHasSub e.data low

/-- `validateStatus` passed to `axios.get`: statuses in `[200, 500)` are
resolved as responses to interpret rather than thrown as errors. -/
def validateStatus (status : Nat) : Bool :=
  decide (200 ≤ status) && decide (status < 500)

/-- Outcome of the `await axios.get(targetUrl, ...)` call:
`ok` is a resolved response (`validateStatus` true, i.e. status in
`[200, 500)`); `errResponse` a rejection carrying an upstream response
(`error.response`); `errRequest` a rejection with a request but no
response (network failure / timeout); `errSetup msg` any other local
failure (`error.message = msg`). -/
inductive FetchOutcome where
  | ok (status : Nat) (body : JsonValue)
  | errResponse (status : Nat) (body : JsonValue)
  | errRequest
  | errSetup (msg : String)

/-- A response the proxy executor sends: a redirect or
`res.status(status).json(body)` (`res.json` alone is status 200). -/
inductive HttpResponse where
  | redirect (location : String)
  | json (status : Nat) (body : JsonValue)

/-- The image-URL extraction performed by `handleProxyRequest` on a
resolved sub-500 response: requires a truthy `imageUrlField`, a truthy
object body, a string at the dotted path, and an image-extension match;
everything else leaves `imageUrl = null`. -/
def extractedImageUrl (ps : ProxySettings) (body : JsonValue) : Option String :=
  match ps.imageUrlField with
  | some fld =>
    if fld = "" then none
    else if jsTruthyObject body then
      match getValueByDotNotation body fld with
      | some (JsonValue.str s) => if hasImageExt s then some s else none
      | _ => none
    else none
  | none => none

/-- `handleProxyRequest(targetUrl, proxySettings, res)` (`index.js` lines
313–363), as a function of the single fetch outcome: exactly one response
is produced and no retry exists. -/
def handleProxyRequest (targetUrl : String) (ps : ProxySettings) :
    FetchOutcome → HttpResponse
  | FetchOutcome.ok status body =>
    if 400 ≤ status then
      HttpResponse.json status (jsOrJson body (JsonValue.obj
        [("error", JsonValue.str ("Target API error (Status " ++ toString status ++ ")"))]))
    else
      match extractedImageUrl ps body with
      | some u => HttpResponse.redirect u
      | none =>
        if jsOr ps.fallbackAction "returnJson" = "error" then
          HttpResponse.json 404 (JsonValue.obj
            [("error", JsonValue.str "Could not extract image URL from target API response."),
             ("targetUrl", JsonValue.str targetUrl)])
        else
          HttpResponse.json 200 body
  | FetchOutcome.errResponse status body =>
    HttpResponse.json status (jsOrJson body (JsonValue.obj
      [("error", JsonValue.str "Proxy target returned an error")]))
  | FetchOutcome.errRequest =>
    HttpResponse.json 504 (JsonValue.obj
      [("error", JsonValue.str "Proxy request timed out or failed"),
       ("targetUrl", JsonValue.str targetUrl)])
  | FetchOutcome.errSetup msg =>
    HttpResponse.json 500 (JsonValue.obj
      [("error", JsonValue.str "Proxy request setup failed"),
       ("message", JsonValue.str msg)])

/-! ## Parameter validation and dispatch (`app.get('/:apiKey')`,
`index.js` lines 544–679) -/

/-- Error message pushed for a missing required parameter
(line 635). -/
def missingMsg (name : String) : String :=
  "Missing required query parameter: " ++ name ++ "."

/-- Error message pushed for a value outside `validValues` (line 630). -/
def invalidMsg (name : String) (validValues : List String) : String :=
  "Invalid value for parameter '" ++ name ++ "'. Valid: " ++ joinSep ", " validValues ++ "."

/-- The validation loop (lines 626–639), threading `validatedParams` and
`errors` in order: a supplied value is checked against `validValues` when
that is set (any array, even empty, is truthy) and accepted otherwise; an
absent required parameter records an error; an absent optional parameter
takes its `defaultValue` when that is not `undefined` (even `""`), else is
omitted. -/
def validateAux (q : List (String × String)) :
    List ParameterSchema → List (String × String) → List String →
      List (String × String) × List String
  | [], acc, errs => (acc, errs)
  | p :: ps, acc, errs =>
    match lookupAssoc q p.name with
    | some v =>
      match p.validValues with
      | some vs =>
        if listHas v vs then validateAux q ps (insertAssoc acc p.name v) errs
        else validateAux q ps acc (errs ++ [invalidMsg p.name vs])
      | none => validateAux q ps (insertAssoc acc p.name v) errs
    | none =>
      if p.required then validateAux q ps acc (errs ++ [missingMsg p.name])
      else
        match p.defaultValue with
        | some d => validateAux q ps (insertAssoc acc p.name d) errs
        | none => validateAux q ps acc errs

/-- Validated parameter map and error list for a whole schema. -/
def validateParams (qps : List ParameterSchema) (q : List (String × String)) :
    List (String × String) × List String :=
  validateAux q qps [] []

/-- Target-URL construction for a non-empty validated map (lines 651–664):
parse the base with `new URL` and append via `searchParams`, falling back
on a parse failure to raw concatenation with `?` or `&` plus the
form-urlencoded parameter string. -/
def constructTargetUrl (base : String) (validated : List (String × String)) : String :=
  match parseURL base with
  | some u => urlToString (appendSearchParams u validated)
  | none => base ++ (if base.data.contains '?' then "&" else "?") ++ serializeForm validated

/-- Generic target URL: the base is left untouched when no parameter was
validated (`Object.keys(validatedParams).length > 0` guard, line 651). -/
def buildGenericUrl (base : String) (validated : List (String × String)) : String :=
  if validated = [] then base else constructTargetUrl base validated

/-- The spec-side precondition of C1/C2 on one schema entry: a required
parameter is supplied, and a supplied value for an entry with
`validValues` is a member. -/
def entryOk (q : List (String × String)) (p : ParameterSchema) : Bool :=
  match lookupAssoc q p.name with
  | some v =>
    match p.validValues with
    | some vs => listHas v vs
    | none => true
  | none => !p.required

/-- Spec-side precondition: the query satisfies every `required` entry and
every supplied declared value passes its `validValues`. -/
def queryOk (qps : List ParameterSchema) (q : List (String × String)) : Bool :=
  qps.all (entryOk q)

/-- The `field` selection of the `special_forward` branch (line 580):
`req.query.field || configEntry.proxySettings?.imageUrlFieldFromParamDefault || 'url'`. -/
def forwardField (ep : Endpoint) (q : List (String × String)) : String :=
  jsOr (lookupAssoc q "field") (jsOr ep.proxySettings.imageUrlFieldFromParamDefault "url")

/-- The `special_forward` branch (lines 577–586). -/
def dispatchForward (ep : Endpoint) (q : List (String × String)) : DispatchResult :=
  let fieldParam := forwardField ep q
  match lookupAssoc q "url" with
  | some t =>
    if t = "" then DispatchResult.jsonError 400 "Missing required query parameter: url" []
    else DispatchResult.proxy t { ep.proxySettings with imageUrlField := some fieldParam }
  | none => DispatchResult.jsonError 400 "Missing required query parameter: url" []

/-- The `special_pollinations` branch (lines 588–600).  An absent
`modelName` is interpolated by the template literal as the text
`"undefined"`. -/
def dispatchPollinations (cfg : Config) (ep : Endpoint) (q : List (String × String)) :
    DispatchResult :=
  match lookupAssoc q "tags" with
  | some tags =>
    if tags = "" then DispatchResult.jsonError 400 "Missing required query parameter: tags" []
    else
      let baseTag := jsOrStr cfg.baseTag ""
      let modelName := match ep.modelName with | some m => m | none => "undefined"
      DispatchResult.redirect
        (ep.url ++ encodeURIComponent tags ++ "%2c" ++ baseTag ++
          "?&model=" ++ modelName ++ "&nologo=true")
  | none => DispatchResult.jsonError 400 "Missing required query parameter: tags" []

/-- The schema entry named `model`, if any
(`configEntry.queryParams?.find(p => p.name === 'model')`). -/
def findModelParam : List ParameterSchema → Option ParameterSchema
  | [] => none
  | p :: ps => if p.name = "model" then some p else findModelParam ps

/-- The `model` selection of the `special_draw_redirect` branch (line 606):
`req.query.model || modelParamConfig?.defaultValue || 'flux'`. -/
def drawModel (ep : Endpoint) (q : List (String × String)) : String :=
  jsOr (lookupAssoc q "model")
    (jsOr ((findModelParam ep.queryParams).bind fun p => p.defaultValue) "flux")

/-- The valid model set of the `special_draw_redirect` branch (line 610):
`modelParamConfig?.validValues || ['flux', 'turbo']` (a present empty array
is truthy and therefore used). -/
def drawValidModels (ep : Endpoint) : List String :=
  match (findModelParam ep.queryParams).bind fun p => p.validValues with
  | some vs => vs
  | none => ["flux", "turbo"]

/-- The `special_draw_redirect` branch (lines 602–617). -/
def dispatchDrawRedirect (ep : Endpoint) (q : List (String × String)) : DispatchResult :=
  let model := drawModel ep q
  match lookupAssoc q "tags" with
  | some tags =>
    if tags = "" then DispatchResult.jsonError 400 "Missing required query parameter: tags" []
    else
      let validModels := drawValidModels ep
      if listHas model validModels then
        DispatchResult.redirect ("/" ++ model ++ "?tags=" ++ encodeURIComponent tags)
      else
        DispatchResult.jsonError 400
          ("Invalid model parameter. Valid options: " ++ joinSep ", " validModels) []
  | none => DispatchResult.jsonError 400 "Missing required query parameter: tags" []

/-- The generic branch (lines 619–679): validate, fail on any error, fail
on a missing configuration URL, build the target, then branch on
`method === 'proxy'` with redirect as the catch-all. -/
def dispatchGeneric (ep : Endpoint) (q : List (String × String)) : DispatchResult :=
  let v := validateParams ep.queryParams q
  if v.2 ≠ [] then
    DispatchResult.jsonError 400 "Invalid query parameters." v.2
  else if ep.url = "" then
    DispatchResult.jsonError 500 "Internal server error: API configuration URL is missing." []
  else
    let targetUrl := buildGenericUrl ep.url v.1
    if ep.method = "proxy" then DispatchResult.proxy targetUrl ep.proxySettings
    else DispatchResult.redirect targetUrl

/-- The whole `app.get('/:apiKey')` handler (lines 544–679): static-asset
and reserved-name passthrough, registry lookup, missing-`method`
passthrough, the three special strategies in source order, then the
generic path. -/
def dispatch (cfg : Config) (apiKey : String) (q : List (String × String)) : DispatchResult :=
  if apiKey.data.contains '.' then DispatchResult.next
  else if apiKey = "favicon.ico" then DispatchResult.next
  else if apiKey = "config" then DispatchResult.next
  else if apiKey = "admin" then DispatchResult.next
  else
    match lookupEndpoint cfg.apiUrls apiKey with
    | none => DispatchResult.next
    | some ep =>
      if ep.method = "" then DispatchResult.next
      else if ep.urlConstruction = some "special_forward" then dispatchForward ep q
      else if ep.urlConstruction = some "special_pollinations" then dispatchPollinations cfg ep q
      else if ep.urlConstruction = some "special_draw_redirect" then dispatchDrawRedirect ep q
      else dispatchGeneric ep q

/-- Is a dispatch outcome an HTTP redirect? -/
def isRedirect : DispatchResult → Bool
  | DispatchResult.redirect _ => true
  | _ => false

/-- Is a dispatch outcome an invocation of the proxy executor? -/
def isProxy : DispatchResult → Bool
  | DispatchResult.proxy _ _ => true
  | _ => false

/-! ## Concrete fixtures used by the closed instance theorems -/

/-- Proxy settings with every field absent. -/
def psN : ProxySettings := ⟨none, none, none, none⟩

/-- Proxy settings extracting `data.url`. -/
def psImgEx : ProxySettings := ⟨some "data.url", none, none, none⟩

/-- Upstream JSON body holding an image URL at `data.url`. -/
def bodyImgEx : JsonValue :=
  JsonValue.obj [("data", JsonValue.obj [("url", JsonValue.str "https://img/x.png")])]

/-- A `special_pollinations` endpoint (the spec's worked example). -/
def epPollEx : Endpoint :=
  { url := "https://x/", method := "redirect", urlConstruction := some "special_pollinations",
    modelName := some "flux", queryParams := [], proxySettings := psN }

/-- Registry holding `epPollEx` under key `p` with base tag `art`. -/
def cfgPollEx : Config := { apiUrls := [("p", epPollEx)], baseTag := "art" }

/-- A `special_draw_redirect` endpoint with no declared parameters. -/
def epDrawEx : Endpoint :=
  { url := "", method := "redirect", urlConstruction := some "special_draw_redirect",
    modelName := none, queryParams := [], proxySettings := psN }

/-- Registry holding `epDrawEx` under key `d`. -/
def cfgDrawEx : Config := { apiUrls := [("d", epDrawEx)], baseTag := "" }

/-- A `special_draw_redirect` endpoint whose `model` schema entry has
default value `turbo`. -/
def epDrawDef : Endpoint :=
  { url := "", method := "redirect", urlConstruction := some "special_draw_redirect",
    modelName := none, queryParams := [⟨"model", false, some "turbo", none⟩],
    proxySettings := psN }

/-- Registry holding `epDrawDef` under key `d`. -/
def cfgDrawDef : Config := { apiUrls := [("d", epDrawDef)], baseTag := "" }

/-- A `special_forward` endpoint with `fallbackAction = error`. -/
def epFwdEx : Endpoint :=
  { url := "http://ignored", method := "proxy", urlConstruction := some "special_forward",
    modelName := none, queryParams := [], proxySettings := ⟨none, none, none, some "error"⟩ }

/-- Registry holding `epFwdEx` under key `f`. -/
def cfgFwdEx : Config := { apiUrls := [("f", epFwdEx)], baseTag := "" }

/-- A generic redirect endpoint with a base query string, a required
enumerated parameter, a defaulted parameter and a plain optional one. -/
def epGenEx : Endpoint :=
  { url := "https://api.example.com/v1?a=1", method := "redirect", urlConstruction := none,
    modelName := none,
    queryParams := [⟨"w", true, none, some ["5", "6"]⟩, ⟨"h", false, some "10", none⟩,
      ⟨"z", false, none, none⟩],
    proxySettings := psN }

/-- Registry holding `epGenEx` under key `img`. -/
def cfgGenEx : Config := { apiUrls := [("img", epGenEx)], baseTag := "" }

/-- A generic redirect endpoint whose configured URL is empty. -/
def epNoUrlEx : Endpoint :=
  { url := "", method := "redirect", urlConstruction := none, modelName := none,
    queryParams := [], proxySettings := psN }

/-- Registry holding `epNoUrlEx` under key `a`. -/
def cfgNoUrlEx : Config := { apiUrls := [("a", epNoUrlEx)], baseTag := "" }

/-- A generic endpoint with a required parameter `x` and an enumerated
parameter `c`. -/
def epReqEx : Endpoint :=
  { url := "http://t", method := "redirect", urlConstruction := none, modelName := none,
    queryParams := [⟨"x", true, none, none⟩, ⟨"c", false, none, some ["a", "b"]⟩],
    proxySettings := psN }

/-- Registry holding `epReqEx` under key `r`. -/
def cfgReqEx : Config := { apiUrls := [("r", epReqEx)], baseTag := "" }

/-- A generic endpoint whose `method` is a string outside the documented
enum. -/
def epCatchEx : Endpoint :=
  { url := "http://t", method := "banana", urlConstruction := none, modelName := none,
    queryParams := [], proxySettings := psN }

/-- Registry holding `epCatchEx` under key `c1`. -/
def cfgCatchEx : Config := { apiUrls := [("c1", epCatchEx)], baseTag := "" }

/-! ## Lemmas about the validation loop and the dispatcher -/

theorem lookupAssoc_insertAssoc (m : List (String × String)) (key v k : String) :
    lookupAssoc (insertAssoc m key v) k = if k = key then some v else lookupAssoc m k := by
  induction m with
  | nil =>
    by_cases h : k = key
    · subst h; simp [insertAssoc, lookupAssoc]
    · simp [insertAssoc, lookupAssoc, h, Ne.symm h]
  | cons hd tl ih =>
    obtain ⟨hk, hv⟩ := hd
    by_cases h1 : hk = key
    · subst h1
      by_cases h2 : k = hk
      · subst h2; simp [insertAssoc, lookupAssoc]
      · simp [insertAssoc, lookupAssoc, h2, Ne.symm h2]
    · by_cases h2 : k = hk
      · subst h2
        simp [insertAssoc, lookupAssoc, h1, Ne.symm h1]
      · simp [insertAssoc, lookupAssoc, h1, h2, Ne.symm h2, ih]

theorem validateAux_mem_snd (q : List (String × String)) (qps : List ParameterSchema) :
    ∀ acc errs msg, msg ∈ errs → msg ∈ (validateAux q qps acc errs).2 := by
  induction qps with
  | nil => intro acc errs msg h; simpa [validateAux] using h
  | cons p ps ih =>
    intro acc errs msg h
    rw [validateAux]
    split
    · split
      · split
        · exact ih _ _ _ h
        · exact ih _ _ _ (by simp [h])
      · exact ih _ _ _ h
    · split
      · exact ih _ _ _ (by simp [h])
      · split
        · exact ih _ _ _ h
        · exact ih _ _ _ h

theorem validateAux_snd_nil (q : List (String × String)) (qps : List ParameterSchema) :
    ∀ acc errs, (validateAux q qps acc errs).2 = [] → errs = [] := by
  induction qps with
  | nil => intro acc errs h; simpa [validateAux] using h
  | cons p ps ih =>
    intro acc errs h
    rw [validateAux] at h
    split at h
    · split at h
      · split at h
        · exact ih _ _ h
        · exact absurd (ih _ _ h) (by simp)
      · exact ih _ _ h
    · split at h
      · exact absurd (ih _ _ h) (by simp)
      · split at h
        · exact ih _ _ h
        · exact ih _ _ h

theorem validateAux_ok_snd (q : List (String × String)) (qps : List ParameterSchema)
    (hok : queryOk qps q = true) :
    ∀ acc errs, (validateAux q qps acc errs).2 = errs := by
  induction qps with
  | nil => intro acc errs; simp [validateAux]
  | cons p ps ih =>
    have hall : entryOk q p = true ∧ queryOk ps q = true := by
      simpa [queryOk, List.all_cons, Bool.and_eq_true] using hok
    intro acc errs
    rw [validateAux]
    split
    · rename_i v hv
      split
      · rename_i vs hvs
        have hh : listHas v vs = true := by
          have h1 := hall.1
          simp [entryOk, hv, hvs] at h1
          exact h1
        simp only [hh, if_true]
        exact ih hall.2 _ _
      · exact ih hall.2 _ _
    · rename_i hv
      have hr : p.required = false := by
        have h1 := hall.1
        simp [entryOk, hv] at h1
        exact h1
      simp only [hr]
      rw [if_neg (by simp)]
      split
      · exact ih hall.2 _ _
      · exact ih hall.2 _ _

theorem validateAux_bad_snd (q : List (String × String)) (qps : List ParameterSchema)
    (hbad : queryOk qps q = false) :
    ∀ acc errs, (validateAux q qps acc errs).2 ≠ [] := by
  induction qps with
  | nil => intro acc errs; simp [queryOk] at hbad
  | cons p ps ih =>
    intro acc errs h
    have hsplit : entryOk q p = false ∨ queryOk ps q = false := by
      cases h1 : entryOk q p with
      | false => exact Or.inl rfl
      | true =>
        cases h2 : queryOk ps q with
        | false => exact Or.inr rfl
        | true =>
          exfalso
          have hT : queryOk (p :: ps) q = true := by
            rw [queryOk, List.all_cons, h1, Bool.true_and]
            rw [queryOk] at h2
            exact h2
          rw [hT] at hbad
          exact absurd hbad (by decide)
    rw [validateAux] at h
    rcases hsplit with hbad1 | hbad2
    · split at h
      · rename_i v hv
        split at h
        · rename_i vs hvs
          split at h
          · rename_i hh
            simp [entryOk, hv, hvs, hh] at hbad1
          · exact absurd (validateAux_snd_nil q ps _ _ h) (by simp)
        · rename_i hvs
          simp [entryOk, hv, hvs] at hbad1
      · rename_i hv
        split at h
        · exact absurd (validateAux_snd_nil q ps _ _ h) (by simp)
        · rename_i hr
          simp [entryOk, hv] at hbad1
          exact hr (by simp [hbad1])
    · split at h
      · split at h
        · split at h
          · exact ih hbad2 _ _ h
          · exact ih hbad2 _ _ h
        · exact ih hbad2 _ _ h
      · split at h
        · exact ih hbad2 _ _ h
        · split at h
          · exact ih hbad2 _ _ h
          · exact ih hbad2 _ _ h

theorem validateAux_missing_mem (q : List (String × String)) (p : ParameterSchema)
    (habs : lookupAssoc q p.name = none) (hreq : p.required = true) :
    ∀ qps, p ∈ qps → ∀ acc errs, missingMsg p.name ∈ (validateAux q qps acc errs).2 := by
  intro qps
  induction qps with
  | nil => intro hp; cases hp
  | cons p0 ps ih =>
    intro hp acc errs
    rcases List.mem_cons.mp hp with heq | htl
    · subst heq
      rw [validateAux]
      simp only [habs, hreq, if_true]
      exact validateAux_mem_snd q ps _ _ _ (by simp)
    · rw [validateAux]
      split
      · split
        · split
          · exact ih htl _ _
          · exact ih htl _ _
        · exact ih htl _ _
      · split
        · exact ih htl _ _
        · split
          · exact ih htl _ _
          · exact ih htl _ _

theorem validateAux_invalid_mem (q : List (String × String)) (p : ParameterSchema)
    (v : String) (vs : List String) (hsup : lookupAssoc q p.name = some v)
    (hvv : p.validValues = some vs) (hbad : listHas v vs = false) :
    ∀ qps, p ∈ qps → ∀ acc errs, invalidMsg p.name vs ∈ (validateAux q qps acc errs).2 := by
  intro qps
  induction qps with
  | nil => intro hp; cases hp
  | cons p0 ps ih =>
    intro hp acc errs
    rcases List.mem_cons.mp hp with heq | htl
    · subst heq
      rw [validateAux]
      simp only [hsup, hvv, hbad]
      rw [if_neg (by simp)]
      exact validateAux_mem_snd q ps _ _ _ (by simp)
    · rw [validateAux]
      split
      · split
        · split
          · exact ih htl _ _
          · exact ih htl _ _
        · exact ih htl _ _
      · split
        · exact ih htl _ _
        · split
          · exact ih htl _ _
          · exact ih htl _ _

theorem validateAux_fst_notmem (q : List (String × String)) (n : String) :
    ∀ qps : List ParameterSchema, n ∉ (qps.map fun p => p.name) →
      ∀ acc errs, lookupAssoc (validateAux q qps acc errs).1 n = lookupAssoc acc n := by
  intro qps
  induction qps with
  | nil => intro _ acc errs; simp [validateAux]
  | cons p0 ps ih =>
    intro hn acc errs
    simp only [List.map_cons, List.mem_cons, not_or] at hn
    obtain ⟨hn0, hn'⟩ := hn
    rw [validateAux]
    split
    · split
      · split
        · rw [ih hn' _ _, lookupAssoc_insertAssoc, if_neg hn0]
        · exact ih hn' _ _
      · rw [ih hn' _ _, lookupAssoc_insertAssoc, if_neg hn0]
    · split
      · exact ih hn' _ _
      · split
        · rw [ih hn' _ _, lookupAssoc_insertAssoc, if_neg hn0]
        · exact ih hn' _ _

theorem validateAux_fst_mem (q : List (String × String)) (p : ParameterSchema) :
    ∀ qps : List ParameterSchema, (qps.map fun x => x.name).Nodup →
      queryOk qps q = true → p ∈ qps →
      ∀ acc errs, lookupAssoc acc p.name = none →
        lookupAssoc (validateAux q qps acc errs).1 p.name =
          (match lookupAssoc q p.name with
           | some v => some v
           | none => p.defaultValue) := by
  intro qps
  induction qps with
  | nil => intro _ _ hp; cases hp
  | cons p0 ps ih =>
    intro hnd hok hp acc errs hacc
    have hall : entryOk q p0 = true ∧ queryOk ps q = true := by
      simpa [queryOk, List.all_cons, Bool.and_eq_true] using hok
    have hnotin : p0.name ∉ ps.map fun x => x.name := (List.nodup_cons.mp hnd).1
    have hnd' : (ps.map fun x => x.name).Nodup := (List.nodup_cons.mp hnd).2
    rcases List.mem_cons.mp hp with heq | htl
    · subst heq
      rw [validateAux]
      cases hq : lookupAssoc q p.name with
      | some v =>
        cases hvv : p.validValues with
        | some vs =>
          have hh : listHas v vs = true := by
            have h1 := hall.1
            simp [entryOk, hq, hvv] at h1
            exact h1
          simp only [hq, hvv, hh, if_true]
          rw [validateAux_fst_notmem q _ ps hnotin _ _, lookupAssoc_insertAssoc, if_pos rfl]
        | none =>
          simp only [hq, hvv]
          rw [validateAux_fst_notmem q _ ps hnotin _ _, lookupAssoc_insertAssoc, if_pos rfl]
      | none =>
        have hr : p.required = false := by
          have h1 := hall.1
          simp [entryOk, hq] at h1
          exact h1
        cases hdv : p.defaultValue with
        | some d =>
          simp only [hq, hr]
          rw [if_neg (by simp)]
          rw [validateAux_fst_notmem q _ ps hnotin _ _, lookupAssoc_insertAssoc, if_pos rfl]
        | none =>
          simp only [hq, hr]
          rw [if_neg (by simp)]
          rw [validateAux_fst_notmem q _ ps hnotin _ _]
          exact hacc
    · have hpn : p.name ∈ ps.map fun x => x.name := List.mem_map_of_mem _ htl
      have hne : ¬ p.name = p0.name := fun he => hnotin (he ▸ hpn)
      rw [validateAux]
      split
      · split
        · split
          · refine ih hnd' hall.2 htl _ _ ?_
            rw [lookupAssoc_insertAssoc, if_neg hne]
            exact hacc
          · exact ih hnd' hall.2 htl _ _ hacc
        · refine ih hnd' hall.2 htl _ _ ?_
          rw [lookupAssoc_insertAssoc, if_neg hne]
          exact hacc
      · split
        · exact ih hnd' hall.2 htl _ _ hacc
        · split
          · refine ih hnd' hall.2 htl _ _ ?_
            rw [lookupAssoc_insertAssoc, if_neg hne]
            exact hacc
          · exact ih hnd' hall.2 htl _ _ hacc

theorem jsOrStr_empty (s : String) : jsOrStr s "" = s := by
  rw [jsOrStr]
  split
  · rename_i h; exact h.symm
  · rfl

theorem not_favicon {apiKey : String} (hdot : apiKey.data.contains '.' = false) :
    apiKey ≠ "favicon.ico" := by
  intro he
  rw [he] at hdot
  exact absurd hdot (by decide)

theorem dispatch_reachable (cfg : Config) (apiKey : String) (q : List (String × String))
    (ep : Endpoint) (hdot : apiKey.data.contains '.' = false)
    (hcfg : apiKey ≠ "config") (hadm : apiKey ≠ "admin")
    (hlook : lookupEndpoint cfg.apiUrls apiKey = some ep) (hm : ep.method ≠ "") :
    dispatch cfg apiKey q =
      (if ep.urlConstruction = some "special_forward" then dispatchForward ep q
       else if ep.urlConstruction = some "special_pollinations" then dispatchPollinations cfg ep q
       else if ep.urlConstruction = some "special_draw_redirect" then dispatchDrawRedirect ep q
       else dispatchGeneric ep q) := by
  rw [dispatch]
  simp only [hdot]
  rw [if_neg (by decide), if_neg (not_favicon hdot), if_neg hcfg, if_neg hadm]
  simp only [hlook]
  rw [if_neg hm]

theorem validateParams_snd_nil (qps : List ParameterSchema) (q : List (String × String))
    (hok : queryOk qps q = true) : (validateParams qps q).2 = [] :=
  validateAux_ok_snd q qps hok [] []

theorem validateParams_snd_ne (qps : List ParameterSchema) (q : List (String × String))
    (hbad : queryOk qps q = false) : (validateParams qps q).2 ≠ [] :=
  validateAux_bad_snd q qps hbad [] []

theorem validateParams_missing_mem (qps : List ParameterSchema) (q : List (String × String))
    (p : ParameterSchema) (hp : p ∈ qps) (habs : lookupAssoc q p.name = none)
    (hreq : p.required = true) : missingMsg p.name ∈ (validateParams qps q).2 :=
  validateAux_missing_mem q p habs hreq qps hp [] []

theorem validateParams_invalid_mem (qps : List ParameterSchema) (q : List (String × String))
    (p : ParameterSchema) (hp : p ∈ qps) (v : String) (vs : List String)
    (hsup : lookupAssoc q p.name = some v) (hvv : p.validValues = some vs)
    (hbad : listHas v vs = false) : invalidMsg p.name vs ∈ (validateParams qps q).2 :=
  validateAux_invalid_mem q p v vs hsup hvv hbad qps hp [] []

theorem validateParams_lookup_mem (qps : List ParameterSchema) (q : List (String × String))
    (hnd : (qps.map fun x => x.name).Nodup) (hok : queryOk qps q = true)
    (p : ParameterSchema) (hp : p ∈ qps) :
    lookupAssoc (validateParams qps q).1 p.name =
      (match lookupAssoc q p.name with
       | some v => some v
       | none => p.defaultValue) :=
  validateAux_fst_mem q p qps hnd hok hp [] [] rfl

theorem validateParams_lookup_notmem (qps : List ParameterSchema) (q : List (String × String))
    (n : String) (hn : n ∉ qps.map fun p => p.name) :
    lookupAssoc (validateParams qps q).1 n = none := by
  rw [validateParams, validateAux_fst_notmem q n qps hn [] []]
  rfl

/-! ## Claim theorems -/

/-- Claim C8: on a reachable generic route whose query passes parameter
validation but whose configured `url` is empty/missing, the dispatcher
responds with the 500 configuration-defect error — a status class distinct
from the 400 used for client-input errors — and performs no redirect and
no proxy invocation. -/
theorem missing_config_url_spec (cfg : Config) (apiKey : String)
    (q : List (String × String)) (ep : Endpoint)
    (hdot : apiKey.data.contains '.' = false)
    (hcfg : apiKey ≠ "config") (hadm : apiKey ≠ "admin")
    (hlook : lookupEndpoint cfg.apiUrls apiKey = some ep) (hm : ep.method ≠ "")
    (h1 : ep.urlConstruction ≠ some "special_forward")
    (h2 : ep.urlConstruction ≠ some "special_pollinations")
    (h3 : ep.urlConstruction ≠ some "special_draw_redirect")
    (hok : queryOk ep.queryParams q = true)
    (hurl : ep.url = "") :
    dispatch cfg apiKey q =
        DispatchResult.jsonError 500
          "Internal server error: API configuration URL is missing." []
      ∧ isRedirect (dispatch cfg apiKey q) = false
      ∧ isProxy (dispatch cfg apiKey q) = false
      ∧ (∀ e d, dispatch cfg apiKey q ≠ DispatchResult.jsonError 400 e d) := by
  have hd := dispatch_reachable cfg apiKey q ep hdot hcfg hadm hlook hm
  rw [if_neg h1, if_neg h2, if_neg h3] at hd
  have hv : (validateParams ep.queryParams q).2 = [] := validateParams_snd_nil _ _ hok
  have hg : dispatchGeneric ep q =
      DispatchResult.jsonError 500
        "Internal server error: API configuration URL is missing." [] := by
    simp [dispatchGeneric, hv, hurl]
  rw [hd, hg]
  refine ⟨rfl, rfl, rfl, ?_⟩
  intro e d h
  injection h with h1 h2
  omega

/-- Closed instance of `missing_config_url_spec` on the fixture registry:
the empty-url endpoint produces exactly the 500 error. -/
theorem missing_config_url_spec_witness :
    dispatch cfgNoUrlEx "a" [] =
      DispatchResult.jsonError 500
        "Internal server error: API configuration URL is missing." [] :=
  (missing_config_url_spec cfgNoUrlEx "a" [] epNoUrlEx (by decide) (by decide) (by decide)
    (by decide) (by decide) (by decide) (by decide) (by decide) (by decide) rfl).1

/-- Claim C10: once a reachable generic route passes validation and has a
non-empty `url`, the proxy path is taken exactly when `method` is the
string `proxy`; every other truthy `method` value — including strings
outside the documented enum — falls to the redirect branch. -/
theorem method_branch_spec (cfg : Config) (apiKey : String)
    (q : List (String × String)) (ep : Endpoint)
    (hdot : apiKey.data.contains '.' = false)
    (hcfg : apiKey ≠ "config") (hadm : apiKey ≠ "admin")
    (hlook : lookupEndpoint cfg.apiUrls apiKey = some ep) (hm : ep.method ≠ "")
    (h1 : ep.urlConstruction ≠ some "special_forward")
    (h2 : ep.urlConstruction ≠ some "special_pollinations")
    (h3 : ep.urlConstruction ≠ some "special_draw_redirect")
    (hok : queryOk ep.queryParams q = true)
    (hurl : ep.url ≠ "") :
    (ep.method = "proxy" →
        dispatch cfg apiKey q =
          DispatchResult.proxy (buildGenericUrl ep.url (validateParams ep.queryParams q).1)
            ep.proxySettings)
    ∧ (ep.method ≠ "proxy" →
        dispatch cfg apiKey q =
          DispatchResult.redirect
            (buildGenericUrl ep.url (validateParams ep.queryParams q).1)) := by
  have hd := dispatch_reachable cfg apiKey q ep hdot hcfg hadm hlook hm
  rw [if_neg h1, if_neg h2, if_neg h3] at hd
  have hv : (validateParams ep.queryParams q).2 = [] := validateParams_snd_nil _ _ hok
  constructor
  · intro hp
    rw [hd]
    simp [dispatchGeneric, hv, hurl, hp]
  · intro hp
    rw [hd]
    simp [dispatchGeneric, hv, hurl, hp]

/-- Closed instance of `method_branch_spec`: the undocumented method value
`banana` still redirects. -/
theorem method_branch_spec_witness :
    dispatch cfgCatchEx "c1" [] = DispatchResult.redirect "http://t" := by
  have h := (method_branch_spec cfgCatchEx "c1" [] epCatchEx (by decide) (by decide)
    (by decide) (by decide) (by decide) (by decide) (by decide) (by decide) (by decide)
    (by decide)).2 (by decide)
  rw [h]
  decide

/-- Claim C1 counterexample: an endpoint with `method = redirect`, no
`urlConstruction`, and an empty configured `url`, together with a query
satisfying every required entry (there are none), produces the 500
configuration error rather than the redirect the claim requires, so the
claim as stated fails without a non-empty-url proviso. -/
theorem generic_redirect_empty_url_counterexample :
    dispatch cfgNoUrlEx "a" [] ≠
        DispatchResult.redirect (buildGenericUrl epNoUrlEx.url
          (validateParams epNoUrlEx.queryParams []).1)
      ∧ isRedirect (dispatch cfgNoUrlEx "a" []) = false
      ∧ dispatch cfgNoUrlEx "a" [] =
          DispatchResult.jsonError 500
            "Internal server error: API configuration URL is missing." [] := by
  decide

/-- Claim C1 (amended with a non-empty `url`): on a reachable
`method = redirect` endpoint with no `urlConstruction`, a non-empty `url`
and pairwise-distinct schema names, a query satisfying every required
entry and every `validValues` produces exactly a redirect — never a proxy
— whose location is the base URL with the validated parameters appended:
each supplied declared value, the default of each absent defaulted entry,
nothing for an absent optional entry without a default, and no undeclared
name; the location merges via URL parsing when the base parses and
otherwise falls back to total string concatenation with `?`/`&`. -/
theorem generic_redirect_spec (cfg : Config) (apiKey : String)
    (q : List (String × String)) (ep : Endpoint)
    (hdot : apiKey.data.contains '.' = false)
    (hcfg : apiKey ≠ "config") (hadm : apiKey ≠ "admin")
    (hlook : lookupEndpoint cfg.apiUrls apiKey = some ep)
    (hmeth : ep.method = "redirect")
    (huc : ep.urlConstruction = none)
    (hurl : ep.url ≠ "")
    (hnd : (ep.queryParams.map fun p => p.name).Nodup)
    (hok : queryOk ep.queryParams q = true) :
    dispatch cfg apiKey q =
        DispatchResult.redirect (buildGenericUrl ep.url (validateParams ep.queryParams q).1)
      ∧ isProxy (dispatch cfg apiKey q) = false
      ∧ (∀ p ∈ ep.queryParams,
          lookupAssoc (validateParams ep.queryParams q).1 p.name =
            (match lookupAssoc q p.name with
             | some v => some v
             | none => p.defaultValue))
      ∧ (∀ n, n ∉ ep.queryParams.map (fun p => p.name) →
          lookupAssoc (validateParams ep.queryParams q).1 n = none)
      ∧ ((validateParams ep.queryParams q).1 = [] →
          buildGenericUrl ep.url (validateParams ep.queryParams q).1 = ep.url)
      ∧ (∀ u, parseURL ep.url = some u → (validateParams ep.queryParams q).1 ≠ [] →
          buildGenericUrl ep.url (validateParams ep.queryParams q).1 =
            urlToString (appendSearchParams u (validateParams ep.queryParams q).1))
      ∧ (parseURL ep.url = none → (validateParams ep.queryParams q).1 ≠ [] →
          buildGenericUrl ep.url (validateParams ep.queryParams q).1 =
            ep.url ++ (if ep.url.data.contains '?' then "&" else "?") ++
              serializeForm (validateParams ep.queryParams q).1) := by
  have hm : ep.method ≠ "" := by rw [hmeth]; decide
  have hd := dispatch_reachable cfg apiKey q ep hdot hcfg hadm hlook hm
  rw [if_neg (by rw [huc]; exact fun h => Option.noConfusion h),
      if_neg (by rw [huc]; exact fun h => Option.noConfusion h),
      if_neg (by rw [huc]; exact fun h => Option.noConfusion h)] at hd
  have hv : (validateParams ep.queryParams q).2 = [] := validateParams_snd_nil _ _ hok
  have hnp : ep.method ≠ "proxy" := by rw [hmeth]; decide
  have hred : dispatch cfg apiKey q =
      DispatchResult.redirect (buildGenericUrl ep.url (validateParams ep.queryParams q).1) := by
    rw [hd]
    simp [dispatchGeneric, hv, hurl, hnp]
  refine ⟨hred, by rw [hred]; rfl, ?_, ?_, ?_, ?_, ?_⟩
  · intro p hp
    exact validateParams_lookup_mem ep.queryParams q hnd hok p hp
  · intro n hn
    exact validateParams_lookup_notmem ep.queryParams q n hn
  · intro h
    rw [buildGenericUrl, if_pos h]
  · intro u hu hne
    rw [buildGenericUrl, if_neg hne, constructTargetUrl, hu]
  · intro hu hne
    rw [buildGenericUrl, if_neg hne, constructTargetUrl, hu]

/-- Closed instance of `generic_redirect_spec`: the fixture endpoint with
base query `a=1`, supplied `w=5`, defaulted `h=10` and omitted `z` yields
the standards-merged redirect location. -/
theorem generic_redirect_spec_witness :
    dispatch cfgGenEx "img" [("w", "5")] =
      DispatchResult.redirect "https://api.example.com/v1?a=1&w=5&h=10" := by
  have h := (generic_redirect_spec cfgGenEx "img" [("w", "5")] epGenEx (by decide) (by decide)
    (by decide) (by decide) (by decide) (by decide) (by decide) (by decide) (by decide)).1
  rw [h]
  decide

/-- Claim C2 counterexample: the error recorded for a missing required
parameter is the literal `Missing required query parameter: x.` — the
message list does not include the claimed string
`missing required parameter: x`. -/
theorem validation_error_message_counterexample :
    dispatch cfgReqEx "r" [] =
        DispatchResult.jsonError 400 "Invalid query parameters."
          ["Missing required query parameter: x."]
      ∧ "missing required parameter: x" ∉ ["Missing required query parameter: x."] := by
  decide

/-- Claim C2 (amended to the code's message literals): on a reachable
generic route, a query with any required entry absent or any supplied
declared value outside its `validValues` produces one 400 response whose
`details` list is the full error list — containing
`Missing required query parameter: <name>.` for every absent required
entry and `Invalid value for parameter '<name>'. Valid: <values>.` for
every out-of-set supplied value — with all accepted values discarded and
neither a redirect nor a proxy call. -/
theorem generic_validation_spec (cfg : Config) (apiKey : String)
    (q : List (String × String)) (ep : Endpoint)
    (hdot : apiKey.data.contains '.' = false)
    (hcfg : apiKey ≠ "config") (hadm : apiKey ≠ "admin")
    (hlook : lookupEndpoint cfg.apiUrls apiKey = some ep) (hm : ep.method ≠ "")
    (h1 : ep.urlConstruction ≠ some "special_forward")
    (h2 : ep.urlConstruction ≠ some "special_pollinations")
    (h3 : ep.urlConstruction ≠ some "special_draw_redirect")
    (hbad : queryOk ep.queryParams q = false) :
    dispatch cfg apiKey q =
        DispatchResult.jsonError 400 "Invalid query parameters."
          (validateParams ep.queryParams q).2
      ∧ (validateParams ep.queryParams q).2 ≠ []
      ∧ isRedirect (dispatch cfg apiKey q) = false
      ∧ isProxy (dispatch cfg apiKey q) = false
      ∧ (∀ p ∈ ep.queryParams, lookupAssoc q p.name = none → p.required = true →
          missingMsg p.name ∈ (validateParams ep.queryParams q).2)
      ∧ (∀ p ∈ ep.queryParams, ∀ v vs, lookupAssoc q p.name = some v →
          p.validValues = some vs → listHas v vs = false →
          invalidMsg p.name vs ∈ (validateParams ep.queryParams q).2) := by
  have hd := dispatch_reachable cfg apiKey q ep hdot hcfg hadm hlook hm
  rw [if_neg h1, if_neg h2, if_neg h3] at hd
  have hne : (validateParams ep.queryParams q).2 ≠ [] := validateParams_snd_ne _ _ hbad
  have herr : dispatch cfg apiKey q =
      DispatchResult.jsonError 400 "Invalid query parameters."
        (validateParams ep.queryParams q).2 := by
    rw [hd]
    simp only [dispatchGeneric]
    rw [if_pos hne]
  refine ⟨herr, hne, by rw [herr]; rfl, by rw [herr]; rfl, ?_, ?_⟩
  · intro p hp habs hreq
    exact validateParams_missing_mem ep.queryParams q p hp habs hreq
  · intro p hp v vs hsup hvv hvbad
    exact validateParams_invalid_mem ep.queryParams q p hp v vs hsup hvv hvbad

/-- Closed instance of `generic_validation_spec`: with `x` missing and
`c=z` outside `validValues`, both messages appear in one 400 response. -/
theorem generic_validation_spec_witness :
    dispatch cfgReqEx "r" [("c", "z")] =
        DispatchResult.jsonError 400 "Invalid query parameters."
          ["Missing required query parameter: x.",
           "Invalid value for parameter 'c'. Valid: a, b."] := by
  have h := (generic_validation_spec cfgReqEx "r" [("c", "z")] epReqEx (by decide) (by decide)
    (by decide) (by decide) (by decide) (by decide) (by decide) (by decide) (by decide)).1
  rw [h]
  decide

/-- Claim C5 counterexample: supplying `tags` with the empty value — a
request that is not "missing" the parameter — still produces the 400
error instead of the redirect the claim requires, because the handler
tests JS truthiness rather than presence. -/
theorem pollinations_empty_tags_counterexample :
    dispatch cfgPollEx "p" [("tags", "")] =
        DispatchResult.jsonError 400 "Missing required query parameter: tags" []
      ∧ isRedirect (dispatch cfgPollEx "p" [("tags", "")]) = false := by
  decide

/-- Claim C5 (amended: absent-or-empty `tags` errors): on a reachable
`special_pollinations` endpoint with a `modelName`, a request whose raw
`tags` is missing or empty gets the 400 error, and any non-empty `tags`
gets a redirect — never a proxy — to exactly
`url ++ encodeURIComponent(tags) ++ "%2c" ++ baseTag ++ "?&model=" ++
modelName ++ "&nologo=true"`. -/
theorem pollinations_spec (cfg : Config) (apiKey : String)
    (q : List (String × String)) (ep : Endpoint) (m : String)
    (hdot : apiKey.data.contains '.' = false)
    (hcfg : apiKey ≠ "config") (hadm : apiKey ≠ "admin")
    (hlook : lookupEndpoint cfg.apiUrls apiKey = some ep) (hm : ep.method ≠ "")
    (huc : ep.urlConstruction = some "special_pollinations")
    (hmn : ep.modelName = some m) :
    ((lookupAssoc q "tags" = none ∨ lookupAssoc q "tags" = some "") →
        dispatch cfg apiKey q =
          DispatchResult.jsonError 400 "Missing required query parameter: tags" [])
    ∧ (∀ tags, lookupAssoc q "tags" = some tags → tags ≠ "" →
        dispatch cfg apiKey q = DispatchResult.redirect
          (ep.url ++ encodeURIComponent tags ++ "%2c" ++ cfg.baseTag ++
            "?&model=" ++ m ++ "&nologo=true")
        ∧ isProxy (dispatch cfg apiKey q) = false) := by
  have hd := dispatch_reachable cfg apiKey q ep hdot hcfg hadm hlook hm
  rw [if_neg (by rw [huc]; decide), if_pos huc] at hd
  constructor
  · intro htags
    rw [hd, dispatchPollinations]
    rcases htags with h | h
    · simp [h]
    · simp [h]
  · intro tags hsome hne
    have hred : dispatch cfg apiKey q = DispatchResult.redirect
        (ep.url ++ encodeURIComponent tags ++ "%2c" ++ cfg.baseTag ++
          "?&model=" ++ m ++ "&nologo=true") := by
      rw [hd, dispatchPollinations]
      simp only [hsome, hmn]
      rw [if_neg hne, jsOrStr_empty]
    exact ⟨hred, by rw [hred]; rfl⟩

/-- Closed instance of `pollinations_spec` on the spec's worked example:
`tags=cat`, `baseTag=art`, `modelName=flux`, `url=https://x/`. -/
theorem pollinations_spec_witness :
    dispatch cfgPollEx "p" [("tags", "cat")] =
      DispatchResult.redirect "https://x/cat%2cart?&model=flux&nologo=true" := by
  have h := ((pollinations_spec cfgPollEx "p" [("tags", "cat")] epPollEx "flux" (by decide)
    (by decide) (by decide) (by decide) (by decide) (by decide) (by decide)).2
    "cat" (by decide) (by decide)).1
  rw [h]
  decide

/-- Claim C6 counterexample: an empty supplied `tags` errors although the
parameter is not missing, and an empty supplied `model` is not used and
not validated — the JS `||` chain silently falls back to the schema
default `turbo` and redirects, where the claim requires validating the
supplied value. -/
theorem draw_redirect_empty_counterexample :
    dispatch cfgDrawEx "d" [("tags", "")] =
        DispatchResult.jsonError 400 "Missing required query parameter: tags" []
      ∧ dispatch cfgDrawDef "d" [("tags", "x"), ("model", "")] =
        DispatchResult.redirect "/turbo?tags=x" := by
  decide

/-- Claim C6 (amended to the JS truthiness chain): on a reachable
`special_draw_redirect` endpoint, a missing-or-empty raw `tags` yields the
400 error; otherwise the model is the first non-empty of the raw `model`
parameter, the `defaultValue` of the schema entry named `model`, and the
literal `flux`; it is validated against that entry's `validValues` when
present (else against `flux`/`turbo`), an invalid model yields a 400
naming the valid options, and a valid one redirects to the internal path
`/<model>?tags=<encoded tags>`. -/
theorem draw_redirect_spec (cfg : Config) (apiKey : String)
    (q : List (String × String)) (ep : Endpoint)
    (hdot : apiKey.data.contains '.' = false)
    (hcfg : apiKey ≠ "config") (hadm : apiKey ≠ "admin")
    (hlook : lookupEndpoint cfg.apiUrls apiKey = some ep) (hm : ep.method ≠ "")
    (huc : ep.urlConstruction = some "special_draw_redirect") :
    ((lookupAssoc q "tags" = none ∨ lookupAssoc q "tags" = some "") →
        dispatch cfg apiKey q =
          DispatchResult.jsonError 400 "Missing required query parameter: tags" [])
    ∧ (∀ tags, lookupAssoc q "tags" = some tags → tags ≠ "" →
        (listHas (drawModel ep q) (drawValidModels ep) = false →
          dispatch cfg apiKey q = DispatchResult.jsonError 400
            ("Invalid model parameter. Valid options: " ++
              joinSep ", " (drawValidModels ep)) [])
        ∧ (listHas (drawModel ep q) (drawValidModels ep) = true →
          dispatch cfg apiKey q = DispatchResult.redirect
            ("/" ++ drawModel ep q ++ "?tags=" ++ encodeURIComponent tags)))
    ∧ (∀ v, lookupAssoc q "model" = some v → v ≠ "" → drawModel ep q = v)
    ∧ ((lookupAssoc q "model" = none ∨ lookupAssoc q "model" = some "") →
        (∀ p d, findModelParam ep.queryParams = some p → p.defaultValue = some d →
          d ≠ "" → drawModel ep q = d)
        ∧ ((((findModelParam ep.queryParams).bind fun p => p.defaultValue) = none ∨
            ((findModelParam ep.queryParams).bind fun p => p.defaultValue) = some "") →
          drawModel ep q = "flux"))
    ∧ (∀ p vs, findModelParam ep.queryParams = some p → p.validValues = some vs →
        drawValidModels ep = vs)
    ∧ ((findModelParam ep.queryParams).bind (fun p => p.validValues) = none →
        drawValidModels ep = ["flux", "turbo"]) := by
  have hd := dispatch_reachable cfg apiKey q ep hdot hcfg hadm hlook hm
  rw [if_neg (by rw [huc]; decide), if_neg (by rw [huc]; decide), if_pos huc] at hd
  refine ⟨?_, ?_, ?_, ?_, ?_, ?_⟩
  · intro htags
    rw [hd, dispatchDrawRedirect]
    rcases htags with h | h
    · simp [h]
    · simp [h]
  · intro tags hsome hne
    constructor
    · intro hinv
      rw [hd, dispatchDrawRedirect]
      simp only [hsome]
      rw [if_neg hne, if_neg (by rw [hinv]; decide)]
    · intro hvalid
      rw [hd, dispatchDrawRedirect]
      simp only [hsome]
      rw [if_neg hne, if_pos hvalid]
  · intro v hv hne
    rw [drawModel, hv, jsOr]
    rw [if_neg hne]
  · intro hmod
    constructor
    · intro p d hp hd' hne
      rcases hmod with h | h
      · rw [drawModel, h, jsOr, hp]
        simp only [Option.some_bind, hd']
        rw [jsOr, if_neg hne]
      · rw [drawModel, h, jsOr, if_pos rfl, hp]
        simp only [Option.some_bind, hd']
        rw [jsOr, if_neg hne]
    · intro hdef
      have hflux : jsOr ((findModelParam ep.queryParams).bind fun p => p.defaultValue)
          "flux" = "flux" := by
        rcases hdef with h | h
        · rw [h, jsOr]
        · rw [h, jsOr, if_pos rfl]
      rcases hmod with h | h
      · rw [drawModel, h, jsOr, hflux]
      · rw [drawModel, h, jsOr, if_pos rfl, hflux]
  · intro p vs hp hvs
    rw [drawValidModels, hp]
    simp only [Option.some_bind, hvs]
  · intro hnone
    rw [drawValidModels, hnone]

/-- Closed instance of `draw_redirect_spec`: no `model` parameter and no
matching schema default yields the internal redirect `/flux?tags=cat`. -/
theorem draw_redirect_spec_witness :
    dispatch cfgDrawEx "d" [("tags", "cat")] = DispatchResult.redirect "/flux?tags=cat" := by
  have h := (((draw_redirect_spec cfgDrawEx "d" [("tags", "cat")] epDrawEx (by decide)
    (by decide) (by decide) (by decide) (by decide) (by decide)).2.1)
    "cat" (by decide) (by decide)).2 (by decide)
  rw [h]
  decide

/-- Claim C7 counterexample: supplying `url` with the empty value — a
request that does supply the parameter — produces the 400 error (whose
text is moreover capitalised `Missing required query parameter: url`)
instead of the proxy invocation the claim requires. -/
theorem forward_empty_url_counterexample :
    dispatch cfgFwdEx "f" [("url", "")] =
        DispatchResult.jsonError 400 "Missing required query parameter: url" []
      ∧ isProxy (dispatch cfgFwdEx "f" [("url", "")]) = false := by
  decide

/-- Claim C7 (amended to the JS truthiness chain): on a reachable
`special_forward` endpoint, a missing-or-empty raw `url` yields the 400
error `Missing required query parameter: url` with no proxy invocation;
any non-empty `url` always goes to the proxy executor on that exact
target — regardless of the endpoint's `method` — with `imageUrlField`
set to the first non-empty of the raw `field` parameter, the configured
`imageUrlFieldFromParamDefault`, and the literal `url`, and with every
other proxy setting preserved. -/
theorem forward_spec (cfg : Config) (apiKey : String)
    (q : List (String × String)) (ep : Endpoint)
    (hdot : apiKey.data.contains '.' = false)
    (hcfg : apiKey ≠ "config") (hadm : apiKey ≠ "admin")
    (hlook : lookupEndpoint cfg.apiUrls apiKey = some ep) (hm : ep.method ≠ "")
    (huc : ep.urlConstruction = some "special_forward") :
    ((lookupAssoc q "url" = none ∨ lookupAssoc q "url" = some "") →
        dispatch cfg apiKey q =
          DispatchResult.jsonError 400 "Missing required query parameter: url" []
        ∧ isProxy (dispatch cfg apiKey q) = false)
    ∧ (∀ u, lookupAssoc q "url" = some u → u ≠ "" →
        dispatch cfg apiKey q = DispatchResult.proxy u
          { ep.proxySettings with imageUrlField := some (forwardField ep q) })
    ∧ (∀ f, lookupAssoc q "field" = some f → f ≠ "" → forwardField ep q = f)
    ∧ ((lookupAssoc q "field" = none ∨ lookupAssoc q "field" = some "") →
        (∀ d, ep.proxySettings.imageUrlFieldFromParamDefault = some d → d ≠ "" →
          forwardField ep q = d)
        ∧ ((ep.proxySettings.imageUrlFieldFromParamDefault = none ∨
            ep.proxySettings.imageUrlFieldFromParamDefault = some "") →
          forwardField ep q = "url")) := by
  have hd := dispatch_reachable cfg apiKey q ep hdot hcfg hadm hlook hm
  rw [if_pos huc] at hd
  refine ⟨?_, ?_, ?_, ?_⟩
  · intro hu
    have herr : dispatch cfg apiKey q =
        DispatchResult.jsonError 400 "Missing required query parameter: url" [] := by
      rw [hd, dispatchForward]
      rcases hu with h | h
      · simp [h]
      · simp [h]
    exact ⟨herr, by rw [herr]; rfl⟩
  · intro u hu hne
    rw [hd, dispatchForward]
    simp only [hu]
    rw [if_neg hne]
  · intro f hf hne
    rw [forwardField, hf, jsOr, if_neg hne]
  · intro hf
    have hbase : ∀ d : String, forwardField ep q =
        jsOr ep.proxySettings.imageUrlFieldFromParamDefault "url" := by
      intro _
      rcases hf with h | h
      · rw [forwardField, h, jsOr]
      · rw [forwardField, h, jsOr, if_pos rfl]
    constructor
    · intro d hd' hne
      rw [hbase d, hd', jsOr, if_neg hne]
    · intro hdef
      rcases hdef with h | h
      · rw [hbase "url", h, jsOr]
      · rw [hbase "url", h, jsOr, if_pos rfl]

/-- Closed instance of `forward_spec`: the supplied target and field reach
the proxy executor with the endpoint's `fallbackAction` preserved. -/
theorem forward_spec_witness :
    dispatch cfgFwdEx "f" [("url", "http://up/x"), ("field", "img")] =
      DispatchResult.proxy "http://up/x" ⟨some "img", none, none, some "error"⟩ := by
  have h := (forward_spec cfgFwdEx "f" [("url", "http://up/x"), ("field", "img")] epFwdEx
    (by decide) (by decide) (by decide) (by decide) (by decide) (by decide)).2.1
    "http://up/x" (by decide) (by decide)
  rw [h]
  decide

/-- Claim C3: on a proxied response with status below 400, with
`imageUrlField` set and an object body, a dotted-path resolution yielding
a string with an image-extension substring (case-insensitive, unanchored)
redirects to that string; otherwise `fallbackAction = error` yields the
404 error naming the target URL, and `returnJson`/unset returns the
fetched body verbatim with status 200; the traversal yields not-found on
any undefined or non-object intermediate value without failing. -/
theorem proxy_extraction_spec (url fld : String) (ps : ProxySettings) (s : Nat)
    (fs : List (String × JsonValue)) (hs : s < 400) (hf : ps.imageUrlField = some fld) :
    (∀ v, getValueByDotNotation (JsonValue.obj fs) fld = some (JsonValue.str v) →
        hasImageExt v = true →
        handleProxyRequest url ps (FetchOutcome.ok s (JsonValue.obj fs)) =
          HttpResponse.redirect v)
    ∧ (extractedImageUrl ps (JsonValue.obj fs) = none → ps.fallbackAction = some "error" →
        handleProxyRequest url ps (FetchOutcome.ok s (JsonValue.obj fs)) =
          HttpResponse.json 404 (JsonValue.obj
            [("error", JsonValue.str "Could not extract image URL from target API response."),
             ("targetUrl", JsonValue.str url)]))
    ∧ (extractedImageUrl ps (JsonValue.obj fs) = none →
        (ps.fallbackAction = none ∨ ps.fallbackAction = some "returnJson") →
        handleProxyRequest url ps (FetchOutcome.ok s (JsonValue.obj fs)) =
          HttpResponse.json 200 (JsonValue.obj fs))
    ∧ (∀ cur : JsonValue, ∀ key keys, jsTruthyObject cur = false →
        dotLookup (some cur) (key :: keys) = none)
    ∧ (∀ key keys, dotLookup (none : Option JsonValue) (key :: keys) = none) := by
  have h400 : ¬ 400 ≤ s := by omega
  refine ⟨?_, ?_, ?_, ?_, ?_⟩
  · intro v hres hext
    have hfe : fld ≠ "" := by
      intro he
      rw [he] at hres
      rw [getValueByDotNotation, if_pos rfl] at hres
      exact Option.noConfusion hres
    have hex : extractedImageUrl ps (JsonValue.obj fs) = some v := by
      rw [extractedImageUrl]
      simp only [hf]
      rw [if_neg hfe,
        if_pos (show jsTruthyObject (JsonValue.obj fs) = true from rfl)]
      simp only [hres]
      rw [if_pos hext]
    simp only [handleProxyRequest]
    rw [if_neg h400]
    simp only [hex]
  · intro hnone hfb
    simp only [handleProxyRequest]
    rw [if_neg h400]
    simp only [hnone, hfb]
    simp [jsOr]
  · intro hnone hfb
    simp only [handleProxyRequest]
    rw [if_neg h400]
    simp only [hnone]
    have hjs : jsOr ps.fallbackAction "returnJson" = "returnJson" := by
      rcases hfb with h | h
      · rw [h, jsOr]
      · rw [h, jsOr, if_neg (by decide)]
    rw [hjs, if_neg (by decide)]
  · intro cur key keys h
    cases cur <;> simp [dotLookup, jsTruthyObject] at h ⊢
  · intro key keys
    rfl

/-- Closed instance of `proxy_extraction_spec`: the spec's worked example
`{"data":{"url":"https://img/x.png"}}` with `imageUrlField = data.url`
redirects to the extracted URL. -/
theorem proxy_extraction_spec_witness :
    handleProxyRequest "http://t" psImgEx (FetchOutcome.ok 200 bodyImgEx) =
      HttpResponse.redirect "https://img/x.png" :=
  (proxy_extraction_spec "http://t" "data.url" psImgEx 200
      [("data", JsonValue.obj [("url", JsonValue.str "https://img/x.png")])]
      (by omega) rfl).1 "https://img/x.png" rfl (by decide)

/-- Claim C4 counterexample: a 404 upstream response whose JSON body is
`null` is not propagated with the same body — the executor substitutes the
synthesized error body because `null` is JS-falsy, not only when the body
is empty. -/
theorem proxy_error_body_counterexample :
    handleProxyRequest "http://t" psN (FetchOutcome.ok 404 JsonValue.null) =
        HttpResponse.json 404 (JsonValue.obj
          [("error", JsonValue.str "Target API error (Status 404)")])
      ∧ handleProxyRequest "http://t" psN (FetchOutcome.ok 404 JsonValue.null) ≠
        HttpResponse.json 404 JsonValue.null := by
  refine ⟨rfl, ?_⟩
  intro h
  rw [show handleProxyRequest "http://t" psN (FetchOutcome.ok 404 JsonValue.null) =
      HttpResponse.json 404 (JsonValue.obj
        [("error", JsonValue.str "Target API error (Status 404)")]) from rfl] at h
  injection h with h1 h2
  exact JsonValue.noConfusion h2

/-- Claim C4 (amended: the body is synthesized whenever the upstream body
is JS-falsy — empty, `null`, `false` or `0` — not only when empty):
`validateStatus` resolves exactly the statuses in `[200, 500)`; a resolved
response with status ≥ 400 is propagated with the same status and body
(synthesized when falsy) with no extraction and no redirect — the outcome
does not depend on the proxy settings; a rejection carrying an upstream
response propagates its status and body likewise; a rejection with no
response yields the 504 timeout error naming the target; any other local
failure yields the generic 500 error; the executor maps one fetch outcome
to one response, so no retry exists. -/
theorem proxy_failure_spec (url : String) (ps : ProxySettings) :
    (∀ s, validateStatus s = true ↔ 200 ≤ s ∧ s < 500)
    ∧ (∀ s body, 400 ≤ s →
        (jsFalsy body = false →
          handleProxyRequest url ps (FetchOutcome.ok s body) = HttpResponse.json s body)
        ∧ (jsFalsy body = true →
          handleProxyRequest url ps (FetchOutcome.ok s body) =
            HttpResponse.json s (JsonValue.obj
              [("error", JsonValue.str ("Target API error (Status " ++ toString s ++ ")"))]))
        ∧ (∀ ps', handleProxyRequest url ps (FetchOutcome.ok s body) =
            handleProxyRequest url ps' (FetchOutcome.ok s body)))
    ∧ (∀ s body,
        (jsFalsy body = false →
          handleProxyRequest url ps (FetchOutcome.errResponse s body) =
            HttpResponse.json s body)
        ∧ (jsFalsy body = true →
          handleProxyRequest url ps (FetchOutcome.errResponse s body) =
            HttpResponse.json s (JsonValue.obj
              [("error", JsonValue.str "Proxy target returned an error")])))
    ∧ handleProxyRequest url ps FetchOutcome.errRequest =
        HttpResponse.json 504 (JsonValue.obj
          [("error", JsonValue.str "Proxy request timed out or failed"),
           ("targetUrl", JsonValue.str url)])
    ∧ (∀ msg, handleProxyRequest url ps (FetchOutcome.errSetup msg) =
        HttpResponse.json 500 (JsonValue.obj
          [("error", JsonValue.str "Proxy request setup failed"),
           ("message", JsonValue.str msg)])) := by
  refine ⟨?_, ?_, ?_, rfl, fun msg => rfl⟩
  · intro s
    rw [validateStatus]
    simp [Bool.and_eq_true, decide_eq_true_eq]
  · intro s body h400
    refine ⟨?_, ?_, ?_⟩
    · intro hfl
      simp only [handleProxyRequest]
      rw [if_pos h400, jsOrJson, if_neg (by simp [hfl])]
    · intro hfl
      simp only [handleProxyRequest]
      rw [if_pos h400, jsOrJson, if_pos hfl]
    · intro ps'
      simp only [handleProxyRequest]
      rw [if_pos h400, if_pos h400]
  · intro s body
    refine ⟨?_, ?_⟩
    · intro hfl
      simp only [handleProxyRequest]
      rw [jsOrJson, if_neg (by simp [hfl])]
    · intro hfl
      simp only [handleProxyRequest]
      rw [jsOrJson, if_pos hfl]

/-- Closed instance of `proxy_failure_spec`: a 404 with a truthy body is
propagated verbatim, and a no-response failure maps to the 504 error. -/
theorem proxy_failure_spec_witness :
    handleProxyRequest "http://t" psN (FetchOutcome.ok 404 (JsonValue.str "boom")) =
        HttpResponse.json 404 (JsonValue.str "boom")
      ∧ handleProxyRequest "http://t" psN FetchOutcome.errRequest =
        HttpResponse.json 504 (JsonValue.obj
          [("error", JsonValue.str "Proxy request timed out or failed"),
           ("targetUrl", JsonValue.str "http://t")]) := by
  constructor
  · exact ((proxy_failure_spec "http://t" psN).2.1 404 (JsonValue.str "boom")
      (by omega)).1 rfl
  · exact (proxy_failure_spec "http://t" psN).2.2.2.1
